import Mathlib

/-!
Verification of the JResponsiveTableHelper widget
(`src/assets/responsive-table-helper.js`).

The development shallowly embeds the state and the methods of
`ResponsiveTableHelper` (jQuery glue aside):

* a table is a list of rows; a row records whether it carries the
  `rth-sub-row` class, whether it carries the `rth-expanded-row` class,
  the visibility of its direct-child `th`/`td` cells, and — for a detail
  sub-row — the visibility of the label/value pair rows of the nested table;
* pixel widths are integers (`outerWidth` values); the measured minimum
  widths form an association list from column index to width, mirroring the
  object built by `getColumnMinWidths` (insertion order preserved);
* fallible computations return `Except String`: the `else` branch of the
  collapse loop in `redraw` calls `this.error(...)`, but no `error` method
  is defined anywhere on the prototype or the instance, so in JavaScript
  that call raises `TypeError: this.error is not a function` and aborts
  the current `redraw` run.
-/

/-- One `tr` of the (top-level) table.  `cells` holds the visibility of the
direct-child `th`/`td` cells.  For a detail sub-row (`rth-sub-row` class),
`pairs` holds the visibility of the label/value rows of the nested table
built by `addSubRow`; it is empty for ordinary rows. -/
structure Row where
  isSubRow : Bool
  expanded : Bool
  cells : List Bool
  pairs : List Bool
deriving DecidableEq

/-- The instance state of `ResponsiveTableHelper` that the embedded methods
read and write (`this.…` fields set up by `listen`). -/
structure RTHState where
  originalAvailableWidth : Int
  initWindowWidth : Int
  availableWidth : Int
  minWidths : List (Nat × Int)
  columnsTotalWidth : Int
  collapsibleColumnIndexes : List Nat
  expandedColumnFilterIndexes : List Nat
  columnsToHide : List Nat
  rows : List Row
deriving DecidableEq

instance {ε α : Type} [DecidableEq ε] [DecidableEq α] : DecidableEq (Except ε α) := fun a b =>
  match a, b with
  | .error e₁, .error e₂ =>
      if h : e₁ = e₂ then isTrue (by rw [h]) else isFalse (fun hc => h (by injection hc))
  | .error _, .ok _ => isFalse (fun hc => Except.noConfusion hc)
  | .ok _, .error _ => isFalse (fun hc => Except.noConfusion hc)
  | .ok a₁, .ok a₂ =>
      if h : a₁ = a₂ then isTrue (by rw [h]) else isFalse (fun hc => h (by injection hc))

/-- Method `sum(arrObj)`: fold over the values of the min-width map. -/
def sumWidths (mw : List (Nat × Int)) : Int :=
  mw.foldl (fun s kv => s + kv.2) 0

/-- Method `hideColumns`, restricted to one row: every direct-child cell at index
`index` is hidden when `index` occurs in `hideColumnIndexes` and shown
otherwise (`$(this).hide()` / `$(this).show()` overwrite the previous
visibility, hence the fresh `List.range`). -/
def hideColumnsRow (hideColumnIndexes : List Nat) (cells : List Bool) : List Bool :=
  (List.range cells.length).map (fun index => !(hideColumnIndexes.contains index))

/-- The pair row built by `addSubRow` for each-index `index` carries
`style="display: none"` exactly when `index` occurs in
`expandedColumnFilterIndexes` or `index + 1` does not occur in
`columnsToHide` (lines 289-295 of the source). -/
def addSubRowPairHidden (filterIndexes columnsToHide : List Nat) (index : Nat) : Bool :=
  filterIndexes.contains index || !(columnsToHide.contains (index + 1))

/-- The detail sub-row built by `addSubRow` below a content row whose
direct-child `td` cells are `parentCells`: one single cell (the
`colspan="999"` `td`), and one label/value pair row per parent cell except
the first, pre-hidden by `addSubRowPairHidden`. -/
def buildSubRow (filterIndexes columnsToHide : List Nat) (parentCells : List Bool) : Row :=
  { isSubRow := true
    expanded := false
    cells := [true]
    pairs := (List.range (parentCells.length - 1)).map
      (fun index => !(addSubRowPairHidden filterIndexes columnsToHide index)) }

/-- Helper `insertRowAfter rows p x` inserts `x` immediately after the row at
index `p` (the `jTr.after(jContentTr)` step of `addSubRow`). -/
def insertRowAfter : List Row → Nat → Row → List Row
  | [], _, _ => []
  | r :: rest, 0, x => r :: x :: rest
  | r :: rest, Nat.succ p, x => r :: insertRowAfter rest p x

/-- Helper `removeRowAfter rows p` removes the row immediately after index `p`
(the `jNextTr.remove()` step of `removeSubRow`). -/
def removeRowAfter : List Row → Nat → List Row
  | r :: _ :: rest, 0 => r :: rest
  | r :: rest, Nat.succ p => r :: removeRowAfter rest p
  | l, _ => l

/-- The next sibling row `jTr.next(tr)` exists and has the `rth-sub-row` class. -/
def subRowFollows (rows : List Row) (p : Nat) : Bool :=
  match rows[p + 1]? with
  | some r => r.isSubRow
  | none => false

/-- Method `addSubRow(jTr)` where `jTr` is the row at index `p`: a no-op when a
sub-row already immediately follows, otherwise builds the detail sub-row
from the row's cells (using the current `columnsToHide`) and inserts it
right after the row. -/
def addSubRow (filterIndexes columnsToHide : List Nat) (rows : List Row) (p : Nat) : List Row :=
  if subRowFollows rows p then rows
  else
    match rows[p]? with
    | some cur => insertRowAfter rows p (buildSubRow filterIndexes columnsToHide cur.cells)
    | none => rows

/-- Method `removeSubRow(jTr)`: deletes the immediately following row when it is a
sub-row, otherwise does nothing. -/
def removeSubRow (rows : List Row) (p : Nat) : List Row :=
  if subRowFollows rows p then removeRowAfter rows p else rows

/-- The collapse loop of `redraw` (lines 341-357).  The loop runs while the
available width is below the running total; each candidate index from the
priority list is shifted by `+1`; a candidate present in the min-width map
is appended to `columnsToHide` and its width subtracted from the total; a
missing candidate reaches `this.error(...)`, and since no `error` method is
defined on the instance or its prototype, JavaScript raises a `TypeError`
there, aborting the run.  (`columnsToShow`/`removeByValue` are dead code in
`redraw`: `columnsToShow` is never read afterwards, so it is not modelled.) -/
def findColumnsToHide (mw : List (Nat × Int)) (aw : Int) :
    List Nat → Int → List Nat → Except String (List Nat)
  | [], _, acc => .ok acc
  | c :: rest, total, acc =>
    if aw < total then
      match mw.lookup (c + 1) with
      | some w => findColumnsToHide mw aw rest (total - w) (acc ++ [c + 1])
      | none => .error "TypeError: this.error is not a function"
    else .ok acc

/-- Lines 361-376 of `redraw`: there is something to expand when some
column was hidden and at least one hidden column survives the
`expandedColumnFilterIndexes` filter.  Every element of `columnsToHide`
here is a shifted index `c + 1 ≥ 1`, so the truncated `e - 1` agrees with
the JavaScript `e - 1`. -/
def hasColumnsToExpand (filterIndexes columnsToHide : List Nat) : Bool :=
  if columnsToHide.length = 0 then false
  else
    let columnsToHideCopy :=
      columnsToHide.filter (fun e => !(filterIndexes.contains (e - 1)))
    !(columnsToHideCopy.length = 0)

/-- Lines 378-380 of `redraw`: when there is nothing to expand, the toggle
column (index 0) is appended to `columnsToHide`. -/
def applyToggleRule (filterIndexes columnsToHide : List Nat) : List Nat :=
  if hasColumnsToExpand filterIndexes columnsToHide then columnsToHide
  else columnsToHide ++ [0]

/-- The hidden-column list computed by one `redraw` pass from its inputs
(`parseInt(this.columnsTotalWidth)` is the identity on an integral total). -/
def redrawComputeHide (mw : List (Nat × Int)) (aw : Int) (total : Int)
    (collapsibleColumnIndexes filterIndexes : List Nat) : Except String (List Nat) :=
  match findColumnsToHide mw aw collapsibleColumnIndexes total [] with
  | .error e => .error e
  | .ok columnsToHide => .ok (applyToggleRule filterIndexes columnsToHide)

/-- Lines 394-405 of `redraw`: every pair row of an open sub-row is shown or
hidden afresh from its index, with the same predicate as at creation time. -/
def redrawSubRowPairs (filterIndexes columnsToHide : List Nat) (pairs : List Bool) : List Bool :=
  (List.range pairs.length).map
    (fun index =>
      if filterIndexes.contains index || !(columnsToHide.contains (index + 1)) then false
      else true)

/-- The visual effect of one `redraw` pass on one row: `hideColumns` on the
direct-child cells, and the pair-row revisit on sub-rows. -/
def redrawRow (filterIndexes columnsToHide : List Nat) (r : Row) : Row :=
  { r with
    cells := hideColumnsRow columnsToHide r.cells
    pairs := if r.isSubRow then redrawSubRowPairs filterIndexes columnsToHide r.pairs
             else r.pairs }

/-- The `redraw` method as a state transformer: computes the hidden-column
list from the current inputs, stores it in `this.columnsToHide`, and
redraws the rows.  A missing min-width candidate aborts with the
`TypeError` described at `findColumnsToHide`. -/
def redrawState (s : RTHState) : Except String RTHState :=
  match redrawComputeHide s.minWidths s.availableWidth s.columnsTotalWidth
      s.collapsibleColumnIndexes s.expandedColumnFilterIndexes with
  | .error e => .error e
  | .ok hide =>
      .ok { s with
            columnsToHide := hide
            rows := s.rows.map (redrawRow s.expandedColumnFilterIndexes hide) }

/-- The initial redraw step of `listen` (lines 248-250): `redraw` runs at
initialization only under `this.availableWidth < this.columnsTotalWidth`. -/
def listenInit (s : RTHState) : Except String RTHState :=
  if s.availableWidth < s.columnsTotalWidth then redrawState s else .ok s

/-- The window-resize handler installed by `listen` (lines 251-256):
recomputes the available width from the window-width offset and always
calls `redraw`. -/
def onResize (s : RTHState) (windowNewSize : Int) : Except String RTHState :=
  redrawState { s with
    availableWidth := s.originalAvailableWidth - (s.initWindowWidth - windowNewSize) }

/-- Sum of the measured minimum widths of the columns whose (shifted) index
is not in the shifted collapse-priority list. -/
def nonCollapsibleWidthSum (mw : List (Nat × Int)) (collapsibleColumnIndexes : List Nat) : Int :=
  sumWidths (mw.filter
    (fun kv => !((collapsibleColumnIndexes.map (· + 1)).contains kv.1)))

/-! ## Lemmas about the collapse loop -/

theorem findColumnsToHide_append (mw : List (Nat × Int)) (aw : Int) (cands : List Nat) :
    ∀ (total : Int) (acc : List Nat),
      findColumnsToHide mw aw cands total acc =
        Except.map (fun l => acc ++ l) (findColumnsToHide mw aw cands total []) := by
  induction cands with
  | nil => intro total acc; simp [findColumnsToHide, Except.map]
  | cons c rest ih =>
    intro total acc
    by_cases h : aw < total
    · rcases hl : mw.lookup (c + 1) with _ | w
      · simp [findColumnsToHide, if_pos h, hl, Except.map]
      · simp only [findColumnsToHide, if_pos h, hl]
        rw [ih (total - w) (acc ++ [c + 1]), ih (total - w) ([] ++ [c + 1])]
        cases findColumnsToHide mw aw rest (total - w) [] <;>
          simp [Except.map, List.append_assoc]
    · simp [findColumnsToHide, if_neg h, Except.map]

theorem findColumnsToHide_acc_mem (mw : List (Nat × Int)) (aw : Int) (cands : List Nat)
    (total : Int) (acc r : List Nat)
    (h : findColumnsToHide mw aw cands total acc = .ok r) :
    ∀ x ∈ acc, x ∈ r := by
  rw [findColumnsToHide_append] at h
  cases hF : findColumnsToHide mw aw cands total [] with
  | error e => rw [hF] at h; simp [Except.map] at h
  | ok l =>
    rw [hF] at h
    simp only [Except.map] at h
    obtain rfl : acc ++ l = r := by injection h
    intro x hx
    exact List.mem_append_left _ hx

theorem findColumnsToHide_mem (mw : List (Nat × Int)) (aw : Int) (cands : List Nat) :
    ∀ (total : Int) (acc r : List Nat) (x : Nat),
      findColumnsToHide mw aw cands total acc = .ok r → x ∈ r →
      x ∈ acc ∨ ∃ c, c ∈ cands ∧ x = c + 1 ∧ (mw.lookup (c + 1)).isSome := by
  induction cands with
  | nil =>
    intro total acc r x h hx
    simp only [findColumnsToHide] at h
    obtain rfl : acc = r := by injection h
    exact Or.inl hx
  | cons c rest ih =>
    intro total acc r x h hx
    by_cases hlt : aw < total
    · simp only [findColumnsToHide, if_pos hlt] at h
      cases hl : mw.lookup (c + 1) with
      | none => rw [hl] at h; exact absurd h (by simp)
      | some w =>
        rw [hl] at h
        rcases ih (total - w) (acc ++ [c + 1]) r x h hx with hacc | ⟨c', hc', hxc', hs'⟩
        · rcases List.mem_append.mp hacc with h1 | h2
          · exact Or.inl h1
          · refine Or.inr ⟨c, List.mem_cons_self c rest, List.mem_singleton.mp h2, ?_⟩
            rw [hl]; rfl
        · exact Or.inr ⟨c', List.mem_cons_of_mem c hc', hxc', hs'⟩
    · simp only [findColumnsToHide, if_neg hlt] at h
      obtain rfl : acc = r := by injection h
      exact Or.inl hx

theorem findColumnsToHide_earlier_mem (mw : List (Nat × Int)) (aw : Int)
    (A B : Nat) (l₂ : List Nat) (hAs : (mw.lookup (A + 1)).isSome) (l₁ : List Nat) :
    ∀ (total : Int) (acc r : List Nat),
      B ∉ l₁ → B ≠ A → (B + 1) ∉ acc →
      findColumnsToHide mw aw (l₁ ++ A :: l₂) total acc = .ok r →
      (B + 1) ∈ r → (A + 1) ∈ r := by
  induction l₁ with
  | nil =>
    intro total acc r _ _ hBacc h hBr
    by_cases hlt : aw < total
    · obtain ⟨wA, hwA⟩ := Option.isSome_iff_exists.mp hAs
      simp only [List.nil_append, findColumnsToHide, if_pos hlt, hwA] at h
      exact findColumnsToHide_acc_mem mw aw l₂ (total - wA) (acc ++ [A + 1]) r h (A + 1)
        (List.mem_append_right _ (List.mem_singleton_self _))
    · simp only [List.nil_append, findColumnsToHide, if_neg hlt] at h
      obtain rfl : acc = r := by injection h
      exact absurd hBr hBacc
  | cons c l₁' ih =>
    intro total acc r hBl₁ hBA hBacc h hBr
    by_cases hlt : aw < total
    · simp only [List.cons_append, findColumnsToHide, if_pos hlt] at h
      cases hl : mw.lookup (c + 1) with
      | none => rw [hl] at h; exact absurd h (by simp)
      | some w =>
        rw [hl] at h
        have hBc : B ≠ c := fun hbc => hBl₁ (hbc ▸ List.mem_cons_self c l₁')
        refine ih (total - w) (acc ++ [c + 1]) r
          (fun hm => hBl₁ (List.mem_cons_of_mem c hm)) hBA ?_ h hBr
        intro hmem
        rcases List.mem_append.mp hmem with h1 | h2
        · exact hBacc h1
        · have hb1 : B + 1 = c + 1 := List.mem_singleton.mp h2
          exact hBc (by omega)
    · simp only [List.cons_append, findColumnsToHide, if_neg hlt] at h
      obtain rfl : acc = r := by injection h
      exact absurd hBr hBacc

theorem applyToggleRule_cases (filterIndexes columnsToHide : List Nat) :
    applyToggleRule filterIndexes columnsToHide = columnsToHide ∨
    applyToggleRule filterIndexes columnsToHide = columnsToHide ++ [0] := by
  cases hE : hasColumnsToExpand filterIndexes columnsToHide
  · exact Or.inr (by rw [applyToggleRule, hE]; rfl)
  · exact Or.inl (by rw [applyToggleRule, hE]; rfl)

theorem redrawComputeHide_ok (mw : List (Nat × Int)) (aw total : Int)
    (prio E hide : List Nat)
    (h : redrawComputeHide mw aw total prio E = .ok hide) :
    ∃ h₀, findColumnsToHide mw aw prio total [] = .ok h₀ ∧
      hide = applyToggleRule E h₀ := by
  unfold redrawComputeHide at h
  cases hF : findColumnsToHide mw aw prio total [] with
  | error e => rw [hF] at h; exact absurd h (by simp)
  | ok h₀ =>
    rw [hF] at h
    refine ⟨h₀, rfl, ?_⟩
    have : applyToggleRule E h₀ = hide := by injection h
    exact this.symm

theorem mem_applyToggleRule_of_mem (E h₀ : List Nat) (x : Nat) (hx : x ∈ h₀) :
    x ∈ applyToggleRule E h₀ := by
  rcases applyToggleRule_cases E h₀ with hc | hc <;> rw [hc]
  · exact hx
  · exact List.mem_append_left _ hx

theorem mem_of_mem_applyToggleRule (E h₀ : List Nat) (x : Nat) (hx0 : x ≠ 0)
    (hx : x ∈ applyToggleRule E h₀) : x ∈ h₀ := by
  rcases applyToggleRule_cases E h₀ with hc | hc <;> rw [hc] at hx
  · exact hx
  · rcases List.mem_append.mp hx with h | h
    · exact h
    · exact absurd (List.mem_singleton.mp h) hx0

/-! ## The claims -/

/-- C3: for every pair of (pre-shift) columns `A` and `B` such that `A`
precedes `B` in the collapse-priority list (positions well defined: the
list has no duplicate), and each of `A`, `B` is hidden at some available
width, `A` is a member of the computed hidden set at every available width
at which `B` is a member: collapsing is monotone in priority-list order. -/
theorem collapse_monotone_in_priority (mw : List (Nat × Int))
    (prio filterIndexes : List Nat) (A B : Nat) (l₁ l₂ l₃ : List Nat)
    (hsplit : prio = l₁ ++ A :: (l₂ ++ B :: l₃))
    (hnodup : prio.Nodup)
    (hA : ∃ (wA : Int) (hideA : List Nat),
      redrawComputeHide mw wA (sumWidths mw) prio filterIndexes = .ok hideA ∧
        (A + 1) ∈ hideA)
    (hB : ∃ (wB : Int) (hideB : List Nat),
      redrawComputeHide mw wB (sumWidths mw) prio filterIndexes = .ok hideB ∧
        (B + 1) ∈ hideB) :
    ∀ (w : Int) (hide : List Nat),
      redrawComputeHide mw w (sumWidths mw) prio filterIndexes = .ok hide →
      (B + 1) ∈ hide → (A + 1) ∈ hide := by
  subst hsplit
  intro w hide h hBhide
  have hBl₁ : B ∉ l₁ := by
    rcases List.nodup_append.mp hnodup with ⟨-, -, hdisj⟩
    intro hm
    exact hdisj hm (by simp)
  have hBA : B ≠ A := by
    rcases List.nodup_append.mp hnodup with ⟨-, hnd, -⟩
    rcases List.nodup_cons.mp hnd with ⟨hAnot, -⟩
    intro hba
    exact hAnot (hba ▸ (by simp : B ∈ l₂ ++ B :: l₃))
  obtain ⟨h₀, hF, rfl⟩ := redrawComputeHide_ok _ _ _ _ _ _ h
  have hB0 : (B + 1) ∈ h₀ :=
    mem_of_mem_applyToggleRule _ _ _ (by omega) hBhide
  obtain ⟨wA, hideA, hFA, hAmem⟩ := hA
  obtain ⟨hA₀, hFA0, rfl⟩ := redrawComputeHide_ok _ _ _ _ _ _ hFA
  have hA0 : (A + 1) ∈ hA₀ :=
    mem_of_mem_applyToggleRule _ _ _ (by omega) hAmem
  have hAs : (mw.lookup (A + 1)).isSome := by
    rcases findColumnsToHide_mem mw wA _ _ _ _ _ hFA0 hA0 with hc | ⟨c, _, hxc, hs⟩
    · simp at hc
    · have : c = A := by omega
      rw [← this]; exact hs
  exact mem_applyToggleRule_of_mem _ _ _
    (findColumnsToHide_earlier_mem mw w A B (l₂ ++ B :: l₃) hAs l₁
      (sumWidths mw) [] h₀ hBl₁ hBA (by simp) hF hB0)

/-- Witness for C3 at a concrete configuration: toggle plus three data
columns, priority list `[2, 1]`; column 2 (shifted 3) is hidden at width
300, column 1 (shifted 2) at width 100, and at width 100 (where column 1
is hidden) column 2 is hidden too. -/
theorem collapse_monotone_in_priority_witness :
    redrawComputeHide [(0, (40 : Int)), (1, 80), (2, 80), (3, 160)] 100
      (sumWidths [(0, (40 : Int)), (1, 80), (2, 80), (3, 160)]) [2, 1] [] = .ok [3, 2] ∧
    (3 : Nat) ∈ [3, 2] := by
  refine ⟨by decide, ?_⟩
  exact collapse_monotone_in_priority [(0, (40 : Int)), (1, 80), (2, 80), (3, 160)]
    [2, 1] [] 2 1 [] [] [] rfl (by decide)
    ⟨300, [3], by decide, by decide⟩ ⟨100, [3, 2], by decide, by decide⟩
    100 [3, 2] (by decide) (by decide)

/-- C5: for every min-width map, available width, running total and
detail-filter list, a layout pass with an empty collapse-priority list
computes the hidden set `[0]`: exactly the synthetic toggle column, and no
data column. -/
theorem empty_priority_hidden_set (mw : List (Nat × Int)) (aw total : Int)
    (filterIndexes : List Nat) :
    redrawComputeHide mw aw total [] filterIndexes = .ok [0] := by
  unfold redrawComputeHide findColumnsToHide
  simp [applyToggleRule, hasColumnsToExpand]

/-- C6 counterexample: min widths 40 for column 0 and 80 for column 1, priority list `[0]`
(shifted: `[1]`), available width 120 ≥ 40 = sum of the min widths of the
non-collapsible columns.  The computed hidden set is `[0]`, and the toggle
column 0 is absent from the shifted collapse-priority list, contradicting
the claim that no such member exists. -/
theorem hidden_subset_priority_counterexample :
    nonCollapsibleWidthSum [(0, (40 : Int)), (1, 80)] [0] ≤ 120 ∧
    redrawComputeHide [(0, (40 : Int)), (1, 80)] 120 120 [0] [] = .ok [0] ∧
    (0 : Nat) ∈ [0] ∧ ¬ (0 : Nat) ∈ (([0] : List Nat).map (· + 1)) := by
  refine ⟨by decide, by decide, by decide, by decide⟩

/-- C6 (amended): for every available width at least the sum of the min
widths of the non-collapsible columns, every member of the computed hidden
set other than the synthetic toggle column 0 is a member of the shifted
collapse-priority list.  (In fact the width bound is not even needed.) -/
theorem hidden_subset_priority_amended (mw : List (Nat × Int)) (aw total : Int)
    (prio filterIndexes hide : List Nat) (x : Nat)
    (_hw : nonCollapsibleWidthSum mw prio ≤ aw)
    (h : redrawComputeHide mw aw total prio filterIndexes = .ok hide)
    (hx : x ∈ hide) (hx0 : x ≠ 0) : x ∈ prio.map (· + 1) := by
  obtain ⟨h₀, hF, rfl⟩ := redrawComputeHide_ok _ _ _ _ _ _ h
  have hxh₀ : x ∈ h₀ := mem_of_mem_applyToggleRule _ _ _ hx0 hx
  rcases findColumnsToHide_mem mw aw prio total [] h₀ x hF hxh₀ with hc | ⟨c, hcp, rfl, -⟩
  · simp at hc
  · exact List.mem_map.mpr ⟨c, hcp, rfl⟩

/-- Witness for the amended C6: with min widths 40 for column 0 and 80 for column 1,
priority `[0]` and width 50 ≥ 40, the hidden set is `[1]` and its
non-zero member 1 is in the shifted priority list `[1]`. -/
theorem hidden_subset_priority_amended_witness :
    redrawComputeHide [(0, (40 : Int)), (1, 80)] 50 120 [0] [] = .ok [1] ∧
    (1 : Nat) ∈ (([0] : List Nat).map (· + 1)) := by
  refine ⟨by decide, ?_⟩
  exact hidden_subset_priority_amended [(0, (40 : Int)), (1, 80)] 50 120 [0] [] [1] 1
    (by decide) (by decide) (by decide) (by decide)

/-- The min-width map of the concrete scenario of C4: six columns,
index 0 the synthetic toggle column. -/
def mwC4 : List (Nat × Int) := [(0, 40), (1, 80), (2, 80), (3, 80), (4, 80), (5, 160)]

/-- C4 counterexample: with the scenario's literal inputs (six columns
0-5, priority list `[5, 4, 3, 2, 1]`), the first candidate shifts to
index 6, which has no measured min width, so at width 280 the layout pass
aborts with the undefined-`error`-method `TypeError` instead of computing
a hidden set equal to the singleton 6. -/
theorem concrete_scenario_counterexample :
    redrawComputeHide mwC4 280 (sumWidths mwC4) [5, 4, 3, 2, 1] [] =
      .error "TypeError: this.error is not a function" ∧
    redrawComputeHide mwC4 280 (sumWidths mwC4) [5, 4, 3, 2, 1] [] ≠ .ok [6] := by
  refine ⟨by decide, by decide⟩

/-- C4 (amended): same six columns, priority list corrected to
`[4, 3, 2, 1, 0]` (valid pre-shift indexes of data columns 1-5, rightmost
first).  The hidden set is exactly `[5]` (the widest data column alone)
for every available width `w` with `360 ≤ w < 520`, and `[5, 4]` for
`280 ≤ w < 360`: at `w < 360` the loop keeps collapsing because the
running total 360 still exceeds `w`. -/
theorem concrete_scenario_amended (w : Int) :
    (360 ≤ w → w < 520 →
      redrawComputeHide mwC4 w (sumWidths mwC4) [4, 3, 2, 1, 0] [] = .ok [5]) ∧
    (280 ≤ w → w < 360 →
      redrawComputeHide mwC4 w (sumWidths mwC4) [4, 3, 2, 1, 0] [] = .ok [5, 4]) := by
  have htot : sumWidths mwC4 = 520 := by decide
  have e5 : List.lookup (4 + 1) mwC4 = some 160 := by decide
  have e4 : List.lookup (3 + 1) mwC4 = some 80 := by decide
  constructor
  · intro h1 h2
    rw [htot]
    unfold redrawComputeHide
    simp only [findColumnsToHide, if_pos h2, e5,
      if_neg (show ¬ w < 520 - 160 by omega)]
    rfl
  · intro h1 h2
    rw [htot]
    unfold redrawComputeHide
    simp only [findColumnsToHide, if_pos (show w < 520 by omega), e5,
      if_pos (show w < 520 - 160 by omega), e4,
      if_neg (show ¬ w < 520 - 160 - 80 by omega)]
    rfl

/-- Witness for the amended C4 at width 400 (in `[360, 520)`): only data
column 5 is hidden. -/
theorem concrete_scenario_amended_witness :
    redrawComputeHide mwC4 400 (sumWidths mwC4) [4, 3, 2, 1, 0] [] = .ok [5] :=
  (concrete_scenario_amended 400).1 (by decide) (by decide)

/-- C2 (code bug): a collapse-priority candidate whose shifted index has
no entry in the min-width map (here candidate 7, shifted 8, with min
widths only for columns 0 and 1) makes the layout pass reach
`this.error(...)`; no `error` method exists on the prototype, so the pass
raises a `TypeError` and aborts instead of reporting and continuing. -/
theorem missing_minwidth_candidate_throws :
    redrawComputeHide [(0, (40 : Int)), (1, 80)] 50 120 [7] [] =
      .error "TypeError: this.error is not a function" := by decide

/-- C1: for a content row with detail-filter exclusion list `E` and hidden
set `H`, a generated detail pair row for original (pre-shift) column index
`i` is visible iff `(i+1) ∈ H` and `i ∉ E` — both in the initial styling
produced by `addSubRow` and in the visibility re-applied by `redraw` when
it revisits existing sub-rows. -/
theorem detail_pair_visibility (E H : List Nat) (parentCells pairs : List Bool) (i : Nat) :
    (i < parentCells.length - 1 →
      (buildSubRow E H parentCells).pairs[i]? =
        some (decide ((i + 1) ∈ H ∧ ¬ i ∈ E))) ∧
    (i < pairs.length →
      (redrawSubRowPairs E H pairs)[i]? =
        some (decide ((i + 1) ∈ H ∧ ¬ i ∈ E))) := by
  constructor
  · intro hi
    simp only [buildSubRow, addSubRowPairHidden, List.getElem?_map,
      List.getElem?_range hi, Option.map_some]
    simp [Bool.not_or, Bool.and_comm]
  · intro hi
    simp only [redrawSubRowPairs, List.getElem?_map, List.getElem?_range hi,
      Option.map_some]
    by_cases h1 : E.contains i <;> by_cases h2 : H.contains (i + 1) <;>
      simp_all

/-- Witness for C1: with exclusion list `[0]` and hidden set `[2, 3]`, the
pair row for column 1 is visible both at creation and after a revisit. -/
theorem detail_pair_visibility_witness :
    (buildSubRow [0] [2, 3] [true, true, true, true]).pairs[1]? = some true ∧
    (redrawSubRowPairs [0] [2, 3] [true, false, true])[1]? = some true := by
  have h := detail_pair_visibility [0] [2, 3] [true, true, true, true] [true, false, true] 1
  exact ⟨by rw [h.1 (by decide)]; decide, by rw [h.2 (by decide)]; decide⟩

/-- C10: `hideColumns` applies one uniform per-index rule to the
direct-child cells of every row of the table: the cell at index `i` is
visible exactly when `i` is not in the hidden list.  Consequently, when
the toggle column 0 is in the hidden set, the single column-spanning cell
of a detail sub-row (index 0 of that row) is hidden too. -/
theorem hideColumns_uniform_rule (hideColumnIndexes : List Nat) (cells : List Bool)
    (i : Nat) (hi : i < cells.length) :
    (hideColumnsRow hideColumnIndexes cells)[i]? =
      some (decide (¬ i ∈ hideColumnIndexes)) ∧
    (0 ∈ hideColumnIndexes →
      ∀ (filterIndexes columnsToHide : List Nat) (parentCells : List Bool),
        (hideColumnsRow hideColumnIndexes
          (buildSubRow filterIndexes columnsToHide parentCells).cells)[0]? =
          some false) := by
  constructor
  · simp only [hideColumnsRow, List.getElem?_map, List.getElem?_range hi,
      Option.map_some]
    simp
  · intro h0 E' H' pc
    simp [hideColumnsRow, buildSubRow, h0]

/-- Witness for C10: hiding `[0, 2]` in a three-cell row hides cells 0 and
2 and shows cell 1; the sub-row colspan cell (index 0) is hidden. -/
theorem hideColumns_uniform_rule_witness :
    (hideColumnsRow [0, 2] [true, true, true])[1]? = some true ∧
    (hideColumnsRow [0, 2] (buildSubRow [] [2] [true, true]).cells)[0]? = some false := by
  have h := hideColumns_uniform_rule [0, 2] [true, true, true] 1 (by decide)
  exact ⟨by rw [h.1]; decide, h.2 (by decide) [] [2] [true, true]⟩

/-! ## Lemmas about sub-row insertion and removal -/

theorem removeRowAfter_insertRowAfter (x : Row) :
    ∀ (rows : List Row) (p : Nat), p < rows.length →
      removeRowAfter (insertRowAfter rows p x) p = rows := by
  intro rows
  induction rows with
  | nil => intro p hp; simp at hp
  | cons r rest ih =>
    intro p hp
    cases p with
    | zero => rfl
    | succ p' =>
      simp only [insertRowAfter, removeRowAfter]
      rw [ih p' (by simp at hp; omega)]

theorem insertRowAfter_getElem_succ (x : Row) :
    ∀ (rows : List Row) (p : Nat), p < rows.length →
      (insertRowAfter rows p x)[p + 1]? = some x := by
  intro rows
  induction rows with
  | nil => intro p hp; simp at hp
  | cons r rest ih =>
    intro p hp
    cases p with
    | zero => simp [insertRowAfter]
    | succ p' =>
      simp only [insertRowAfter]
      rw [List.getElem?_cons_succ]
      exact ih p' (by simp at hp; omega)

/-- C8: for a content row at index `p` with no detail sub-row yet,
expanding (`addSubRow`) then collapsing (`removeSubRow`) restores the
table's row count — indeed the exact row list — and invoking `addSubRow`
twice without an intervening `removeSubRow` creates at most one detail
sub-row (the second call is a no-op), preserving the one-sub-row-per-row
invariant. -/
theorem expand_collapse_round_trip (filterIndexes columnsToHide : List Nat)
    (rows : List Row) (p : Nat) (hp : p < rows.length)
    (hn : subRowFollows rows p = false) :
    (removeSubRow (addSubRow filterIndexes columnsToHide rows p) p).length =
      rows.length ∧
    addSubRow filterIndexes columnsToHide
        (addSubRow filterIndexes columnsToHide rows p) p =
      addSubRow filterIndexes columnsToHide rows p := by
  obtain ⟨cur, hcur⟩ : ∃ cur, rows[p]? = some cur :=
    ⟨rows[p], List.getElem?_eq_getElem hp⟩
  have hadd : addSubRow filterIndexes columnsToHide rows p =
      insertRowAfter rows p (buildSubRow filterIndexes columnsToHide cur.cells) := by
    simp [addSubRow, hn, hcur]
  have hfollow : subRowFollows
      (insertRowAfter rows p (buildSubRow filterIndexes columnsToHide cur.cells)) p
        = true := by
    unfold subRowFollows
    rw [insertRowAfter_getElem_succ _ rows p hp]
    rfl
  constructor
  · rw [hadd]
    simp only [removeSubRow, hfollow, if_true]
    rw [removeRowAfter_insertRowAfter _ rows p hp]
  · rw [hadd]
    simp [addSubRow, hfollow]

/-- Witness for C8 on a one-row table with hidden set `[2]`. -/
theorem expand_collapse_round_trip_witness :
    (removeSubRow (addSubRow [] [2] [⟨false, true, [true, true, true], []⟩] 0) 0).length
      = 1 ∧
    addSubRow [] [2] (addSubRow [] [2] [⟨false, true, [true, true, true], []⟩] 0) 0 =
      addSubRow [] [2] [⟨false, true, [true, true, true], []⟩] 0 := by
  have h := expand_collapse_round_trip [] [2] [⟨false, true, [true, true, true], []⟩] 0
    (by decide) (by decide)
  exact ⟨h.1, h.2⟩

/-- C7: the layout computation of `redraw` is memoryless and idempotent:
two states agreeing on the inputs (available width, min-width map, total
width, collapse-priority list, detail-filter list) — but possibly holding
different previously computed hidden sets — produce identical hidden-column
lists, and re-running `redraw` on its own output reproduces the stored
hidden-column list. -/
theorem redraw_idempotent_memoryless (s₁ s₂ : RTHState)
    (haw : s₁.availableWidth = s₂.availableWidth)
    (hmw : s₁.minWidths = s₂.minWidths)
    (htot : s₁.columnsTotalWidth = s₂.columnsTotalWidth)
    (hcol : s₁.collapsibleColumnIndexes = s₂.collapsibleColumnIndexes)
    (hfil : s₁.expandedColumnFilterIndexes = s₂.expandedColumnFilterIndexes) :
    Except.map RTHState.columnsToHide (redrawState s₁) =
      Except.map RTHState.columnsToHide (redrawState s₂) ∧
    ∀ s' : RTHState, redrawState s₁ = .ok s' →
      Except.map RTHState.columnsToHide (redrawState s') = .ok s'.columnsToHide := by
  constructor
  · unfold redrawState
    rw [haw, hmw, htot, hcol, hfil]
    cases redrawComputeHide s₂.minWidths s₂.availableWidth s₂.columnsTotalWidth
      s₂.collapsibleColumnIndexes s₂.expandedColumnFilterIndexes <;> simp [Except.map]
  · intro s' h
    unfold redrawState at h ⊢
    cases hc : redrawComputeHide s₁.minWidths s₁.availableWidth s₁.columnsTotalWidth
        s₁.collapsibleColumnIndexes s₁.expandedColumnFilterIndexes with
    | error e => rw [hc] at h; exact absurd h (by simp)
    | ok hide =>
      rw [hc] at h
      have hs' : ({ s₁ with
          columnsToHide := hide
          rows := s₁.rows.map (redrawRow s₁.expandedColumnFilterIndexes hide) }
            : RTHState) = s' := by injection h
      rw [← hs']
      simp only []
      rw [hc]
      simp [Except.map]

/-- Witness for C7: two concrete states differing only in the previously
stored hidden set and rows compute the same hidden list. -/
theorem redraw_idempotent_memoryless_witness :
    Except.map RTHState.columnsToHide (redrawState
      { originalAvailableWidth := 200, initWindowWidth := 800, availableWidth := 50,
        minWidths := [(0, 40), (1, 80)], columnsTotalWidth := 120,
        collapsibleColumnIndexes := [0], expandedColumnFilterIndexes := [],
        columnsToHide := [], rows := [⟨false, false, [true, true], []⟩] }) =
    Except.map RTHState.columnsToHide (redrawState
      { originalAvailableWidth := 200, initWindowWidth := 800, availableWidth := 50,
        minWidths := [(0, 40), (1, 80)], columnsTotalWidth := 120,
        collapsibleColumnIndexes := [0], expandedColumnFilterIndexes := [],
        columnsToHide := [9, 9], rows := [] }) :=
  (redraw_idempotent_memoryless _ _ rfl rfl rfl rfl rfl).1

/-- The concrete initial state used for C9: available width 1000, total
column width 120 (so no redraw is needed to fit), priority `[0]`. -/
def sInit : RTHState :=
  { originalAvailableWidth := 1000, initWindowWidth := 800, availableWidth := 1000,
    minWidths := [(0, 40), (1, 80)], columnsTotalWidth := 120,
    collapsibleColumnIndexes := [0], expandedColumnFilterIndexes := [],
    columnsToHide := [], rows := [⟨false, false, [true, true], []⟩] }

/-- C9 counterexample: at initialization with available width 1000 ≥ total
width 120, `listen` skips the redraw entirely — the state is returned
unchanged and no hidden-column set is computed or applied — although a
layout run would produce `[0]` (hiding the toggle column). -/
theorem layout_runs_at_init_counterexample :
    listenInit sInit = .ok sInit ∧
    Except.map RTHState.columnsToHide (redrawState sInit) = .ok [0] ∧
    sInit.columnsToHide ≠ [0] := by
  refine ⟨?_, by decide, by decide⟩
  unfold listenInit
  rw [if_neg (by decide)]

/-- C9 (amended): the Layout Engine runs at initialization only when the
initial available width is smaller than the total column width (`listen`
line 248): `listenInit` equals a full `redraw` exactly then and returns
the state unchanged otherwise; the resize handler recomputes the available
width from the window-width offset and always runs `redraw`. -/
theorem layout_runs_amended (s : RTHState) (wNew : Int) :
    (s.availableWidth < s.columnsTotalWidth → listenInit s = redrawState s) ∧
    (¬ s.availableWidth < s.columnsTotalWidth → listenInit s = .ok s) ∧
    onResize s wNew = redrawState { s with availableWidth :=
      s.originalAvailableWidth - (s.initWindowWidth - wNew) } := by
  refine ⟨fun h => ?_, fun h => ?_, rfl⟩
  · unfold listenInit; rw [if_pos h]
  · unfold listenInit; rw [if_neg h]

/-- Witness for the amended C9 at the concrete state `sInit`. -/
theorem layout_runs_amended_witness : listenInit sInit = .ok sInit :=
  (layout_runs_amended sInit 800).2.1 (by decide)
